import Mathlib

/-!
Verification of the `multi_version` derive-macro core
(`src/multi_version.rs`, `src/properties.rs`).

The development shallowly embeds:
* semantic versions (the external `semver` comparator supplies a total
  order on `major.minor.patch` triples, modelled by `Version`);
* the raw per-variant metadata records (`VariantMeta`) and the property
  aggregation `get_variant_properties` from `properties.rs`, including the
  duplicate-occurrence error (`occurrence_error`);
* the attribute scan resolving the discriminant representation type and
  the structural checks of `derive_multi_version_inner` from
  `multi_version.rs`;
* the semantics of the five generated query operations
  (`implemented_since`, `deprecated_since`, `exists_in`,
  `value_for_version`, `get_all_values`), read off the token templates in
  `derive_multi_version_inner`.

External collaborators (the `syn` token parser and the `semver` range
matcher) are parameters: range matching is an opaque
`String → Version → Bool`, version-string parsing an opaque
`String → Version`, matching the spec's treatment of the semver library
as an external comparator.
-/

namespace MultiVersion

/-- A `semver::Version`: `major.minor.patch`. -/
structure Version where
  major : Nat
  minor : Nat
  patch : Nat
deriving DecidableEq, Repr

/-- Strict lexicographic order on versions, as the external `semver`
comparator provides it. -/
def Version.lt (a b : Version) : Bool :=
  Nat.blt a.major b.major ||
    (Nat.beq a.major b.major &&
      (Nat.blt a.minor b.minor ||
        (Nat.beq a.minor b.minor && Nat.blt a.patch b.patch)))

/-- Non-strict order on versions: `a.le b` is `a < b || a = b`. -/
def Version.le (a b : Version) : Bool :=
  Version.lt a b || a == b

/-- The zero version `semver::Version::new(0, 0, 0)`. -/
def Version.zero : Version := ⟨0, 0, 0⟩

/-- A source location (`proc_macro2::Span`), kept opaque: only identity
matters for the error-reporting claims. -/
structure Span where
  idx : Nat
deriving DecidableEq, Repr

/-- The span `Span::call_site()` used for the structural errors. -/
def Span.callSite : Span := ⟨0⟩

/-- A `syn::Error`: one or more `(span, message)` pairs.
`syn::Error::new` makes a single pair; `Error::combine` appends. -/
def SynError : Type := List (Span × String)

instance : DecidableEq SynError := inferInstanceAs (DecidableEq (List (Span × String)))

/-- From `properties.rs`: the raw metadata enum `VariantMeta`.  Version and
range strings are carried opaquely (`LitStr`), integer literals as `Int`
(`LitInt`); each record keeps its keyword's span. -/
inductive VariantMeta where
  | Implemented (kw : Span) (value : String)
  | Deprecated (kw : Span) (value : String)
  | AlternativeVersion (kw : Span) (versions : List (String × Int))
deriving DecidableEq, Repr

/-- From `properties.rs`: the normalized per-variant property bag
`MultiVersionVariantProperties` (the dead private fields `serialize` and
`to_string` of the source struct are omitted; nothing reads them). -/
structure MultiVersionVariantProperties where
  implemented : Option String := none
  deprecated : Option String := none
  alternate_versions : List (String × Int) := []
  ident : Option String := none
deriving DecidableEq, Repr

/-- Embedding of `properties.rs::occurrence_error`: primary error at the second
occurrence, auxiliary "first one here" note combined at the first. -/
def occurrence_error (fst snd : Span) (attr : String) : SynError :=
  [(snd, "Found multiple occurrences of multi_version(" ++ attr ++ ")"),
   (fst, "first one here")]

/-- The fold body of `get_variant_properties`: walk the metadata records
in order, tracking the keyword spans of an already-seen `implemented` /
`deprecated` record, failing on a duplicate, appending
`alternative_version` pair lists. -/
def aggregate (metas : List VariantMeta) (implemented_kw deprecated_kw : Option Span)
    (output : MultiVersionVariantProperties) :
    Except SynError MultiVersionVariantProperties :=
  match metas with
  | [] => .ok output
  | .Implemented kw value :: rest =>
    match implemented_kw with
    | some fst_kw => .error (occurrence_error fst_kw kw "implemented")
    | none => aggregate rest (some kw) deprecated_kw { output with implemented := some value }
  | .Deprecated kw value :: rest =>
    match deprecated_kw with
    | some fst_kw => .error (occurrence_error fst_kw kw "deprecated")
    | none => aggregate rest implemented_kw (some kw) { output with deprecated := some value }
  | .AlternativeVersion _ versions :: rest =>
    aggregate rest implemented_kw deprecated_kw
      { output with alternate_versions := output.alternate_versions ++ versions }

/-- Embedding of `properties.rs::get_variant_properties` for one variant, taking the
variant's parsed metadata records (the `syn` attribute parsing that
produces them is the external front end). -/
def get_variant_properties (ident : String) (metas : List VariantMeta) :
    Except SynError MultiVersionVariantProperties :=
  aggregate metas none none { ident := some ident }

/-! ### `derive_multi_version_inner`: attribute scan and structural checks -/

/-- The parse result of a `repr` attribute's token tree
(`syn::parse2::<Type>(tokens)` in the source): either a parenthesized
path type `(seg::…::seg)`, a parenthesized non-path type, or anything
else (including a parse failure). -/
inductive ReprArg where
  | parenPath (segs : List String)
  | parenOther
  | notParen
deriving DecidableEq, Repr

/-- A `syn::Attribute` as far as `derive_multi_version_inner` inspects
it: its path (leading colon, segments, whether the single segment carries
path arguments) and its argument tokens. -/
structure Attr where
  leadingColon : Bool
  pathSegments : List String
  segmentHasArguments : Bool
  arg : ReprArg
deriving DecidableEq, Repr

/-- The ten integer kinds the repr scan recognizes. -/
def intKinds : List String :=
  ["u8", "u16", "u32", "u64", "usize", "i8", "i16", "i32", "i64", "isize"]

/-- One iteration of the repr scan in `derive_multi_version_inner`
(lines 13–47): `some path` when the attribute is a `repr(...)` whose
parenthesized type is a path whose last segment names a recognized
integer kind (the scan then sets the discriminant type to that path),
`none` when the attribute is skipped by any of the `continue`s. -/
def recognizedRepr (attr : Attr) : Option (List String) :=
  if attr.leadingColon then none
  else if attr.pathSegments.length ≠ 1 then none
  else if attr.pathSegments ≠ ["repr"] then none
  else if attr.segmentHasArguments then none
  else
    match attr.arg with
    | .parenPath segs =>
      match segs.getLast? with
      | some ident => if intKinds.contains ident then some segs else none
      | none => none
    | _ => none

/-- The whole repr scan: start from the default `usize` and let every
recognized `repr` attribute overwrite the discriminant type, in
attribute order. -/
def resolve_discriminant_type (attrs : List Attr) : List String :=
  attrs.foldl
    (fun acc attr =>
      match recognizedRepr attr with
      | some t => t
      | none => acc)
    ["usize"]

/-- A lifetime parameter of the input's generics, with its bound list
(`syn::LifetimeDef`); `derive_multi_version_inner` only ever counts
these. -/
structure LifetimeParam where
  ident : String
  bounds : List String
deriving DecidableEq, Repr

/-- The generics of the input as far as the macro inspects them:
`gen.lifetimes()` yields exactly the lifetime parameters. -/
structure Generics where
  lifetimes : List LifetimeParam
deriving DecidableEq, Repr

/-- One enum variant: its identifier and its parsed `multi_version`
metadata records (`get_metadata`). -/
structure Variant where
  ident : String
  metas : List VariantMeta
deriving DecidableEq, Repr

/-- The shape of the input declaration (`syn::Data`). -/
inductive Data where
  | enum (variants : List Variant)
  | struc
  | union
deriving DecidableEq, Repr

/-- The input declaration (`syn::DeriveInput`), restricted to the fields the macro reads. -/
structure DeriveInput where
  ident : String
  generics : Generics
  attrs : List Attr
  data : Data
deriving DecidableEq, Repr

/-- The abstract content of the generated `impl` block: the resolved
discriminant type and, per variant in declaration order, the normalized
property bag its match arms are built from. -/
structure Generated where
  discriminant_type : List String
  variants : List (String × MultiVersionVariantProperties)
deriving DecidableEq, Repr

/-- Error for an input with lifetime parameters
(`multi_version.rs` lines 49–55). -/
def lifetimeError : SynError :=
  [(Span.callSite,
    "This macro doesn\x27t support enums with lifetimes. The resulting enums would be unbounded.")]

/-- Error for a non-enum input (`multi_version.rs` lines 57–65). -/
def enumOnlyError : SynError :=
  [(Span.callSite, "This macro only supports enums.")]

/-- Embedding of `multi_version.rs::derive_multi_version_inner`: resolve the
discriminant type, reject lifetimes, reject non-enums, then aggregate
every variant's properties (the `?` on `get_variant_properties` aborts
on the first failing variant). -/
def derive_multi_version_inner (ast : DeriveInput) : Except SynError Generated :=
  let discriminant_type := resolve_discriminant_type ast.attrs
  if ast.generics.lifetimes.length > 0 then
    .error lifetimeError
  else
    match ast.data with
    | .enum variants =>
      (variants.mapM fun v =>
          (get_variant_properties v.ident v.metas).map fun p => (v.ident, p)).map
        fun pairs => { discriminant_type := discriminant_type, variants := pairs }
    | _ => .error enumOnlyError

/-! ### Semantics of the generated query methods

The generated methods are match expressions over `self`; per variant
their semantics is a function of that variant's property bag.  The
external `semver` collaborators are parameters: `parseVersion` for
`semver::Version::from_str(s).unwrap()` and `reqMatches` for
`semver::VersionReq::from_str(s).unwrap().matches(v)`.  The discriminant
type is a parameter `D`, with `ofLit : Int → D` for `D::from(<literal>)`
and, per variant, `selfFrom : D` for `D::from(*self)` (the user-supplied
`From` conversion of the variant's own discriminant). -/

/-- Generated `implemented_since`: the variant's arm if it has an
`implemented` record, else the catch-all `_ => semver::Version::new(0, 0, 0)`. -/
def implemented_since (parseVersion : String → Version)
    (props : MultiVersionVariantProperties) : Version :=
  match props.implemented with
  | some s => parseVersion s
  | none => Version.zero

/-- Generated `deprecated_since`: `Some(parsed)` if the variant has a
`deprecated` record, else the catch-all `_ => None`. -/
def deprecated_since (parseVersion : String → Version)
    (props : MultiVersionVariantProperties) : Option Version :=
  match props.deprecated with
  | some s => some (parseVersion s)
  | none => none

/-- Generated `exists_in`:
`*version >= self.implemented_since() && if let Some(d) = self.deprecated_since() { *version < d } else { true }`. -/
def exists_in (parseVersion : String → Version)
    (props : MultiVersionVariantProperties) (version : Version) : Bool :=
  Version.le (implemented_since parseVersion props) version &&
    match deprecated_since parseVersion props with
    | some d => Version.lt version d
    | none => true

/-- The nested `if … else if … else` chain a variant's `value_arms` arm
is built from (`multi_version.rs` lines 91–108): one test per
`alternate_versions` entry in declaration order, final else
`D::from(*self)`.  A variant with an empty list hits the catch-all
`_ => D::from(*self)`, which this function also computes. -/
def value_match_arm {D : Type} (reqMatches : String → Version → Bool) (ofLit : Int → D)
    (selfFrom : D) (version : Version) : List (String × Int) → D
  | [] => selfFrom
  | (req, lit) :: rest =>
    if reqMatches req version then ofLit lit
    else value_match_arm reqMatches ofLit selfFrom version rest

/-- Generated `value_for_version`: `None` unless `exists_in`, else the
variant's match arm. -/
def value_for_version {D : Type} (parseVersion : String → Version)
    (reqMatches : String → Version → Bool) (ofLit : Int → D) (selfFrom : D)
    (props : MultiVersionVariantProperties) (version : Version) : Option D :=
  if exists_in parseVersion props version then
    some (value_match_arm reqMatches ofLit selfFrom version props.alternate_versions)
  else
    none

/-- Generated `get_all_values`: iterate the `all_variants` array in
declaration order, pushing every variant that is not in the skip slice
(`skip.unwrap_or(&[])`) and exists in the queried version.  Variants are
elements of a type `α` with decidable equality (`PartialEq` on `Self`),
`props` assigns each variant its property bag. -/
def get_all_values {α : Type} [DecidableEq α] (parseVersion : String → Version)
    (props : α → MultiVersionVariantProperties) (all_variants : List α)
    (version : Version) (skip : Option (List α)) : List α :=
  let skipList := skip.getD []
  all_variants.filter fun variant =>
    !skipList.contains variant && exists_in parseVersion (props variant) version

/-! ### Spec-side definitions

For the refinement claims, a second set of definitions transcribes the
spec's words (§4.3 of the design document), to be compared with the
embeddings of the source above. -/

/-- Spec §4.3(3): "exists-in(variant, version) is true iff
`version >= implemented-since(variant)` AND (deprecated-since(variant)
is absent OR `version < deprecated-since(variant)`)". -/
def existsInSpec (impl : Version) (depr : Option Version) (version : Version) : Prop :=
  Version.le impl version = true ∧
    (depr = none ∨ ∃ d, depr = some d ∧ Version.lt version d = true)

instance (impl : Version) (depr : Option Version) (version : Version) :
    Decidable (existsInSpec impl depr version) := by
  unfold existsInSpec
  cases depr <;> simp <;> infer_instance

/-- Spec §4.3(4): evaluate the `alternate_versions` list in declaration
order and return the integer literal paired with the first matching
range expression, `none` when no range matches. -/
def firstMatch (reqMatches : String → Version → Bool) (version : Version) :
    List (String × Int) → Option Int
  | [] => none
  | (req, lit) :: rest =>
    if reqMatches req version then some lit
    else firstMatch reqMatches version rest

/-- Spec §4.3(4): "absent if exists-in is false. Otherwise … the integer
literal paired with the first range expression that matches … If no
range matches (or the list is empty), fall back to the variant's own
ordinal discriminant value cast to the discriminant type". -/
def valueForVersionSpec {D : Type} (parseVersion : String → Version)
    (reqMatches : String → Version → Bool) (ofLit : Int → D) (selfFrom : D)
    (props : MultiVersionVariantProperties) (version : Version) : Option D :=
  if exists_in parseVersion props version then
    some
      (match firstMatch reqMatches version props.alternate_versions with
       | some lit => ofLit lit
       | none => selfFrom)
  else
    none

/-! ### Concrete sample data for witnesses -/

/-- A sample external version parser mapping the version strings used in
the witnesses to their parsed versions (the real one is
`semver::Version::from_str`). -/
def sampleParse (s : String) : Version :=
  if s = "1.0.0" then ⟨1, 0, 0⟩
  else if s = "1.2.0" then ⟨1, 2, 0⟩
  else if s = "1.5.0" then ⟨1, 5, 0⟩
  else if s = "2.0.0" then ⟨2, 0, 0⟩
  else Version.zero

/-- A sample external range matcher for the range strings used in the
witnesses (the real one is `semver::VersionReq::matches`). -/
def sampleReq (s : String) (v : Version) : Bool :=
  if s = ">=1.0.0, <1.5.0" then Version.le ⟨1, 0, 0⟩ v && Version.lt v ⟨1, 5, 0⟩
  else if s = ">=1.5.0" then Version.le ⟨1, 5, 0⟩ v
  else false

/-- A sample property bag with no version metadata at all. -/
def bareProps : MultiVersionVariantProperties := { ident := some "A" }

/-- A sample property bag: `implemented = "1.0.0"`, `deprecated = "2.0.0"`,
two overlapping alternate ranges. -/
def richProps : MultiVersionVariantProperties :=
  { implemented := some "1.0.0"
    deprecated := some "2.0.0"
    alternate_versions := [(">=1.0.0, <1.5.0", 7), (">=1.5.0", 9)]
    ident := some "B" }

/-- A sample property assignment over three variants numbered 0, 1, 2. -/
def sampleProps (n : Nat) : MultiVersionVariantProperties :=
  if n = 1 then richProps else bareProps

/-- A well-formed `repr(u8)` attribute. -/
def reprU8 : Attr :=
  { leadingColon := false
    pathSegments := ["repr"]
    segmentHasArguments := false
    arg := .parenPath ["u8"] }

/-- A well-formed `repr(i64)` attribute. -/
def reprI64 : Attr :=
  { leadingColon := false
    pathSegments := ["repr"]
    segmentHasArguments := false
    arg := .parenPath ["i64"] }

/-- A `repr(C)` attribute: syntactically a repr, but `C` is not a
recognized integer kind. -/
def reprC : Attr :=
  { leadingColon := false
    pathSegments := ["repr"]
    segmentHasArguments := false
    arg := .parenPath ["C"] }

/-- A sample enum input with one unannotated variant and no lifetimes. -/
def sampleEnumInput : DeriveInput :=
  { ident := "E"
    generics := { lifetimes := [] }
    attrs := [reprU8]
    data := .enum [{ ident := "A", metas := [] }] }

/-- A struct input (not an enum), no lifetimes. -/
def sampleStructInput : DeriveInput :=
  { ident := "S"
    generics := { lifetimes := [] }
    attrs := []
    data := .struc }

/-- An enum input declaring a bounded lifetime parameter. -/
def sampleLifetimeInput : DeriveInput :=
  { ident := "L"
    generics := { lifetimes := [{ ident := "a", bounds := ["b"] }] }
    attrs := []
    data := .enum [{ ident := "A", metas := [] }] }

/-- An enum input declaring an unbounded lifetime parameter. -/
def sampleUnboundedInput : DeriveInput :=
  { ident := "U"
    generics := { lifetimes := [{ ident := "a", bounds := [] }] }
    attrs := []
    data := .enum [{ ident := "A", metas := [] }] }

/-- Number of `Implemented` records in a metadata list. -/
def countImplemented : List VariantMeta → Nat
  | [] => 0
  | .Implemented _ _ :: rest => countImplemented rest + 1
  | _ :: rest => countImplemented rest

/-- Number of `Deprecated` records in a metadata list. -/
def countDeprecated : List VariantMeta → Nat
  | [] => 0
  | .Deprecated _ _ :: rest => countDeprecated rest + 1
  | _ :: rest => countDeprecated rest

/-- Weight of a tracked keyword span: 1 when present.  Used to budget
the number of `Deprecated` (resp. `Implemented`) records the aggregation
may still see before erroring. -/
def spanWeight : Option Span → Nat
  | some _ => 1
  | none => 0

/-- A concrete metadata list with two `implemented` records (spans 1 and
2), an `alternative_version` record and one `deprecated` record. -/
def dupMetas : List VariantMeta :=
  [VariantMeta.AlternativeVersion ⟨5⟩ [(">=1.0.0", 3)],
   VariantMeta.Implemented ⟨1⟩ "1.0.0",
   VariantMeta.Deprecated ⟨3⟩ "2.0.0",
   VariantMeta.Implemented ⟨2⟩ "1.5.0"]

/-! ### Helper lemmas -/

/-- The zero version is below every version. -/
theorem Version.zero_le (v : Version) : Version.le Version.zero v = true := by
  rcases v with ⟨a, b, c⟩
  simp [Version.le, Version.lt, Version.zero, Nat.blt, Nat.beq]
  omega

/-! ### Claims -/

/-- C1: for every variant and every queried version, the generated
`exists_in` returns `true` iff the version is at least the variant's
implemented-since version and, when a deprecated-since version is
present, strictly below it — the half-open interval of the spec. -/
theorem exists_in_half_open (parseVersion : String → Version)
    (props : MultiVersionVariantProperties) (version : Version) :
    exists_in parseVersion props version = true ↔
      existsInSpec (implemented_since parseVersion props)
        (deprecated_since parseVersion props) version := by
  unfold exists_in existsInSpec
  cases h : deprecated_since parseVersion props <;> simp [h]

/-- C5: a variant with no version metadata has implemented-since
`0.0.0`, deprecated-since absent, and exists in every version. -/
theorem no_metadata_always_exists (parseVersion : String → Version)
    (props : MultiVersionVariantProperties)
    (h1 : props.implemented = none) (h2 : props.deprecated = none) :
    implemented_since parseVersion props = Version.zero ∧
      deprecated_since parseVersion props = none ∧
      ∀ version, exists_in parseVersion props version = true := by
  refine ⟨by simp [implemented_since, h1], by simp [deprecated_since, h2], fun version => ?_⟩
  simp [exists_in, implemented_since, deprecated_since, h1, h2, Version.zero_le]

/-- Witness for C5 at a concrete bare variant. -/
theorem no_metadata_always_exists_witness :
    bareProps.implemented = none ∧ bareProps.deprecated = none ∧
      (implemented_since sampleParse bareProps = Version.zero ∧
        deprecated_since sampleParse bareProps = none ∧
        ∀ version, exists_in sampleParse bareProps version = true) :=
  ⟨rfl, rfl, no_metadata_always_exists sampleParse bareProps rfl rfl⟩

/-- C8: passing `None` as the skip argument of the generated
`get_all_values` gives exactly the result of passing an empty skip
slice (`skip.unwrap_or(&[])`). -/
theorem get_all_values_none_skip {α : Type} [DecidableEq α]
    (parseVersion : String → Version) (props : α → MultiVersionVariantProperties)
    (all_variants : List α) (version : Version) :
    get_all_values parseVersion props all_variants version none =
      get_all_values parseVersion props all_variants version (some []) := rfl

/-- The nested if-chain of a generated `value_for_version` arm computes
the first-match lookup of the spec, with the `D::from(*self)` fallback. -/
theorem value_match_arm_eq_firstMatch {D : Type} (reqMatches : String → Version → Bool)
    (ofLit : Int → D) (selfFrom : D) (version : Version) :
    ∀ alts : List (String × Int),
      value_match_arm reqMatches ofLit selfFrom version alts =
        match firstMatch reqMatches version alts with
        | some lit => ofLit lit
        | none => selfFrom
  | [] => rfl
  | (req, lit) :: rest => by
    simp only [value_match_arm, firstMatch]
    by_cases h : reqMatches req version = true <;>
      simp [h, value_match_arm_eq_firstMatch reqMatches ofLit selfFrom version rest]

/-- C2: the generated `value_for_version` is absent exactly when
`exists_in` is false, and otherwise returns the integer paired with the
first matching range of `alternate_versions` in declaration order
(first-match-wins), falling back to the variant's own discriminant
converted to the discriminant type when no range matches or the list is
empty — i.e. it coincides with the spec's sequential lookup. -/
theorem value_for_version_first_match {D : Type} (parseVersion : String → Version)
    (reqMatches : String → Version → Bool) (ofLit : Int → D) (selfFrom : D)
    (props : MultiVersionVariantProperties) (version : Version) :
    value_for_version parseVersion reqMatches ofLit selfFrom props version =
      valueForVersionSpec parseVersion reqMatches ofLit selfFrom props version := by
  unfold value_for_version valueForVersionSpec
  by_cases h : exists_in parseVersion props version = true <;>
    simp [h, value_match_arm_eq_firstMatch]

/-- C4: the generated `get_all_values` contains no variant from the
skip list, contains exactly the unskipped variants existing at the
queried version — each exactly once when the declared variants are
distinct — and preserves declaration order (it is a sublist of the
declared variant list). -/
theorem get_all_values_spec {α : Type} [DecidableEq α] (parseVersion : String → Version)
    (props : α → MultiVersionVariantProperties) (all_variants : List α)
    (version : Version) (skip : Option (List α)) (hnd : all_variants.Nodup) :
    (∀ v ∈ get_all_values parseVersion props all_variants version skip, v ∉ skip.getD []) ∧
      (∀ v, v ∈ get_all_values parseVersion props all_variants version skip ↔
        v ∈ all_variants ∧ v ∉ skip.getD [] ∧
          exists_in parseVersion (props v) version = true) ∧
      (get_all_values parseVersion props all_variants version skip).Nodup ∧
      (get_all_values parseVersion props all_variants version skip).Sublist all_variants := by
  have key : ∀ v, v ∈ get_all_values parseVersion props all_variants version skip ↔
      v ∈ all_variants ∧ v ∉ skip.getD [] ∧
        exists_in parseVersion (props v) version = true := by
    intro v
    simp [get_all_values, List.mem_filter, List.contains, List.elem_eq_mem, and_assoc]
  exact ⟨fun v hv => ((key v).mp hv).2.1, key, hnd.filter _,
    List.filter_sublist all_variants⟩

/-- Witness for C4 over three variants `0, 1, 2` with variant `1`
skipped. -/
theorem get_all_values_spec_witness :
    ([0, 1, 2] : List Nat).Nodup ∧
      ((∀ v ∈ get_all_values sampleParse sampleProps [0, 1, 2] ⟨1, 2, 0⟩ (some [1]),
          v ∉ (some [1] : Option (List Nat)).getD []) ∧
        (∀ v, v ∈ get_all_values sampleParse sampleProps [0, 1, 2] ⟨1, 2, 0⟩ (some [1]) ↔
          v ∈ [0, 1, 2] ∧ v ∉ (some [1] : Option (List Nat)).getD [] ∧
            exists_in sampleParse (sampleProps v) ⟨1, 2, 0⟩ = true) ∧
        (get_all_values sampleParse sampleProps [0, 1, 2] ⟨1, 2, 0⟩ (some [1])).Nodup ∧
        (get_all_values sampleParse sampleProps [0, 1, 2] ⟨1, 2, 0⟩ (some [1])).Sublist
          [0, 1, 2]) :=
  ⟨by decide,
    get_all_values_spec sampleParse sampleProps [0, 1, 2] ⟨1, 2, 0⟩ (some [1]) (by decide)⟩

/-- The repr scan's fold equals "last recognized attribute, else the
initial value". -/
theorem reprScan_foldl_getLast (attrs : List Attr) :
    ∀ init : List String,
      attrs.foldl
          (fun acc attr =>
            match recognizedRepr attr with
            | some t => t
            | none => acc)
          init =
        ((attrs.filterMap recognizedRepr).getLast?).getD init := by
  induction attrs with
  | nil => intro init; rfl
  | cons a rest ih =>
    intro init
    simp only [List.foldl_cons, List.filterMap_cons]
    cases h : recognizedRepr a with
    | none => simp only [h]; exact ih init
    | some t =>
      simp only [h]
      rw [ih t]
      cases hl : rest.filterMap recognizedRepr with
      | nil => simp
      | cons b l =>
        rw [List.getLast?_cons_cons]
        cases hgl : (b :: l).getLast? with
        | none => simp at hgl
        | some z => rfl

/-- C7: when no attribute is a recognized `repr` of an integer kind the
discriminant type silently defaults to `usize` (never an error), and a
well-formed `repr(path)` attribute is recognized exactly when the path's
last segment names one of the eight fixed-width or two pointer-width
integer kinds. -/
theorem discriminant_type_resolution (attrs : List Attr) :
    ((∀ a ∈ attrs, recognizedRepr a = none) →
        resolve_discriminant_type attrs = ["usize"]) ∧
      ∀ segs ident, segs.getLast? = some ident →
        recognizedRepr
            { leadingColon := false, pathSegments := ["repr"],
              segmentHasArguments := false, arg := .parenPath segs } =
          if intKinds.contains ident then some segs else none := by
  constructor
  · intro h
    rw [resolve_discriminant_type, reprScan_foldl_getLast,
      List.filterMap_eq_nil_iff.mpr h]
    rfl
  · intro segs ident h
    unfold recognizedRepr
    simp only [h]
    rfl

/-- Witness for C7: `repr(C)` is unrecognized and leaves the default
`usize`; `repr(u8)` is recognized. -/
theorem discriminant_type_resolution_witness :
    resolve_discriminant_type [reprC] = ["usize"] ∧ recognizedRepr reprU8 = some ["u8"] :=
  ⟨(discriminant_type_resolution [reprC]).1 (by decide),
    ((discriminant_type_resolution [reprC]).2 ["u8"] "u8" rfl).trans (by decide)⟩

/-- C10: with several recognized `repr` annotations, the last one in
attribute order determines the discriminant type (each recognized repr
overwrites the previous selection); with none, `usize` remains. -/
theorem last_recognized_repr_wins (attrs : List Attr) :
    resolve_discriminant_type attrs =
      ((attrs.filterMap recognizedRepr).getLast?).getD ["usize"] :=
  reprScan_foldl_getLast attrs ["usize"]

/-- C6: an input with a lifetime parameter fails with the lifetime
structural error; an input that is not an enum fails with the enum-only
structural error; in either case synthesis returns an error and no
generated code. -/
theorem structural_rejection (ast : DeriveInput) :
    (ast.generics.lifetimes ≠ [] →
        derive_multi_version_inner ast = .error lifetimeError) ∧
      (ast.generics.lifetimes = [] → (∀ variants, ast.data ≠ .enum variants) →
        derive_multi_version_inner ast = .error enumOnlyError) ∧
      ((ast.generics.lifetimes ≠ [] ∨ ∀ variants, ast.data ≠ .enum variants) →
        derive_multi_version_inner ast = .error lifetimeError ∨
          derive_multi_version_inner ast = .error enumOnlyError) := by
  have hlt : ast.generics.lifetimes ≠ [] →
      derive_multi_version_inner ast = .error lifetimeError := by
    intro h
    unfold derive_multi_version_inner
    simp [List.length_pos.mpr h]
  have hen : ast.generics.lifetimes = [] → (∀ variants, ast.data ≠ .enum variants) →
      derive_multi_version_inner ast = .error enumOnlyError := by
    intro h1 h2
    unfold derive_multi_version_inner
    rw [h1]
    cases hd : ast.data with
    | enum v => exact absurd hd (h2 v)
    | struc => rfl
    | union => rfl
  refine ⟨hlt, hen, fun h => ?_⟩
  by_cases hl : ast.generics.lifetimes = []
  · rcases h with h | h
    · exact absurd hl h
    · exact Or.inr (hen hl h)
  · exact Or.inl (hlt hl)

/-- Witness for C6: an enum with an unbounded lifetime parameter and a
struct input are both rejected with their structural errors. -/
theorem structural_rejection_witness :
    derive_multi_version_inner sampleUnboundedInput = .error lifetimeError ∧
      derive_multi_version_inner sampleStructInput = .error enumOnlyError :=
  ⟨(structural_rejection sampleUnboundedInput).1 (by decide),
    (structural_rejection sampleStructInput).2.1 rfl (fun v hv => by cases hv)⟩

/-- C9: any lifetime parameter at all — the check only counts the
generics' lifetime list, never reading a parameter's bounds — makes
synthesis fail with the lifetime structural error. -/
theorem lifetime_param_always_rejected (ast : DeriveInput) (lp : LifetimeParam)
    (h : lp ∈ ast.generics.lifetimes) :
    derive_multi_version_inner ast = .error lifetimeError := by
  unfold derive_multi_version_inner
  simp [List.length_pos_of_mem h]

/-- Witness for C9 at an enum declaring a bounded lifetime parameter. -/
theorem lifetime_param_always_rejected_witness :
    derive_multi_version_inner sampleLifetimeInput = .error lifetimeError :=
  lifetime_param_always_rejected sampleLifetimeInput
    { ident := "a", bounds := ["b"] } (by decide)

/-- Reaching a second `Implemented` record while one keyword span is
already tracked yields the duplicate-occurrence error pairing the two
spans, provided the records walked over raise no earlier error. -/
theorem aggregate_second_implemented (k1 k2 : Span) (v2 : String) (l3 : List VariantMeta) :
    ∀ (l2 : List VariantMeta) (dkw : Option Span) (out : MultiVersionVariantProperties),
      countImplemented l2 = 0 →
      countDeprecated l2 + spanWeight dkw ≤ 1 →
      aggregate (l2 ++ VariantMeta.Implemented k2 v2 :: l3) (some k1) dkw out =
        .error (occurrence_error k1 k2 "implemented") := by
  intro l2
  induction l2 with
  | nil => intro dkw out _ _; rfl
  | cons m rest ih =>
    intro dkw out hI hD
    cases m with
    | Implemented kw v => simp [countImplemented] at hI
    | Deprecated kw v =>
      cases dkw with
      | some s =>
        exfalso
        simp only [countDeprecated, spanWeight] at hD
        omega
      | none =>
        simp only [List.cons_append, aggregate]
        refine ih (some kw) _ (by simp [countImplemented] at hI; exact hI) ?_
        simp only [countDeprecated, spanWeight] at hD ⊢
        omega
    | AlternativeVersion kw vs =>
      simp only [List.cons_append, aggregate]
      refine ih dkw _ (by simp [countImplemented] at hI; exact hI) ?_
      simp only [countDeprecated] at hD ⊢
      omega

/-- Walking to the first of two `Implemented` records and then to the
second yields the duplicate-occurrence error pairing their spans. -/
theorem aggregate_first_implemented (k1 k2 : Span) (v1 v2 : String) (l3 : List VariantMeta) :
    ∀ (l1 l2 : List VariantMeta) (dkw : Option Span) (out : MultiVersionVariantProperties),
      countImplemented l1 = 0 → countImplemented l2 = 0 →
      countDeprecated l1 + countDeprecated l2 + spanWeight dkw ≤ 1 →
      aggregate
          (l1 ++ VariantMeta.Implemented k1 v1 :: l2 ++ VariantMeta.Implemented k2 v2 :: l3)
          none dkw out =
        .error (occurrence_error k1 k2 "implemented") := by
  intro l1
  induction l1 with
  | nil =>
    intro l2 dkw out _ hI2 hD
    simp only [List.nil_append, aggregate]
    refine aggregate_second_implemented k1 k2 v2 l3 l2 dkw _ hI2 ?_
    simp only [countDeprecated] at hD
    omega
  | cons m rest ih =>
    intro l2 dkw out hI1 hI2 hD
    cases m with
    | Implemented kw v => simp [countImplemented] at hI1
    | Deprecated kw v =>
      cases dkw with
      | some s =>
        exfalso
        simp only [countDeprecated, spanWeight] at hD
        omega
      | none =>
        simp only [List.cons_append, aggregate]
        refine ih l2 (some kw) _ (by simp [countImplemented] at hI1; exact hI1) hI2 ?_
        simp only [countDeprecated, spanWeight] at hD ⊢
        omega
    | AlternativeVersion kw vs =>
      simp only [List.cons_append, aggregate]
      refine ih l2 dkw _ (by simp [countImplemented] at hI1; exact hI1) hI2 ?_
      simp only [countDeprecated] at hD ⊢
      omega

/-- Symmetric to `aggregate_second_implemented` for `Deprecated`. -/
theorem aggregate_second_deprecated (k1 k2 : Span) (v2 : String) (l3 : List VariantMeta) :
    ∀ (l2 : List VariantMeta) (ikw : Option Span) (out : MultiVersionVariantProperties),
      countDeprecated l2 = 0 →
      countImplemented l2 + spanWeight ikw ≤ 1 →
      aggregate (l2 ++ VariantMeta.Deprecated k2 v2 :: l3) ikw (some k1) out =
        .error (occurrence_error k1 k2 "deprecated") := by
  intro l2
  induction l2 with
  | nil => intro ikw out _ _; rfl
  | cons m rest ih =>
    intro ikw out hD hI
    cases m with
    | Deprecated kw v => simp [countDeprecated] at hD
    | Implemented kw v =>
      cases ikw with
      | some s =>
        exfalso
        simp only [countImplemented, spanWeight] at hI
        omega
      | none =>
        simp only [List.cons_append, aggregate]
        refine ih (some kw) _ (by simp [countDeprecated] at hD; exact hD) ?_
        simp only [countImplemented, spanWeight] at hI ⊢
        omega
    | AlternativeVersion kw vs =>
      simp only [List.cons_append, aggregate]
      refine ih ikw _ (by simp [countDeprecated] at hD; exact hD) ?_
      simp only [countImplemented] at hI ⊢
      omega

/-- Symmetric to `aggregate_first_implemented` for `Deprecated`. -/
theorem aggregate_first_deprecated (k1 k2 : Span) (v1 v2 : String) (l3 : List VariantMeta) :
    ∀ (l1 l2 : List VariantMeta) (ikw : Option Span) (out : MultiVersionVariantProperties),
      countDeprecated l1 = 0 → countDeprecated l2 = 0 →
      countImplemented l1 + countImplemented l2 + spanWeight ikw ≤ 1 →
      aggregate
          (l1 ++ VariantMeta.Deprecated k1 v1 :: l2 ++ VariantMeta.Deprecated k2 v2 :: l3)
          ikw none out =
        .error (occurrence_error k1 k2 "deprecated") := by
  intro l1
  induction l1 with
  | nil =>
    intro l2 ikw out _ hD2 hI
    simp only [List.nil_append, aggregate]
    refine aggregate_second_deprecated k1 k2 v2 l3 l2 ikw _ hD2 ?_
    simp only [countImplemented] at hI
    omega
  | cons m rest ih =>
    intro l2 ikw out hD1 hD2 hI
    cases m with
    | Deprecated kw v => simp [countDeprecated] at hD1
    | Implemented kw v =>
      cases ikw with
      | some s =>
        exfalso
        simp only [countImplemented, spanWeight] at hI
        omega
      | none =>
        simp only [List.cons_append, aggregate]
        refine ih l2 (some kw) _ (by simp [countDeprecated] at hD1; exact hD1) hD2 ?_
        simp only [countImplemented, spanWeight] at hI ⊢
        omega
    | AlternativeVersion kw vs =>
      simp only [List.cons_append, aggregate]
      refine ih l2 ikw _ (by simp [countDeprecated] at hD1; exact hD1) hD2 ?_
      simp only [countImplemented] at hI ⊢
      omega

/-- C3: a variant whose metadata carries a second `implemented` record
(and symmetrically a second `deprecated` record) makes property
aggregation fail with the duplicate-occurrence error that pairs the
second occurrence's span as the primary site with the first occurrence's
span as auxiliary context, and synthesis for the whole invocation aborts
with that error and produces no generated code. -/
theorem duplicate_occurrence_rejected (ident : String) (l1 l2 l3 : List VariantMeta)
    (k1 k2 : Span) (v1 v2 : String) :
    (countImplemented l1 = 0 → countImplemented l2 = 0 →
      countDeprecated l1 + countDeprecated l2 ≤ 1 →
      get_variant_properties ident
          (l1 ++ VariantMeta.Implemented k1 v1 :: l2 ++ VariantMeta.Implemented k2 v2 :: l3) =
        .error (occurrence_error k1 k2 "implemented")) ∧
      (countDeprecated l1 = 0 → countDeprecated l2 = 0 →
        countImplemented l1 + countImplemented l2 ≤ 1 →
        get_variant_properties ident
            (l1 ++ VariantMeta.Deprecated k1 v1 :: l2 ++ VariantMeta.Deprecated k2 v2 :: l3) =
          .error (occurrence_error k1 k2 "deprecated")) ∧
      ∀ (gens : Generics) (attrs : List Attr) (vIdent : String) (metas : List VariantMeta)
          (rest : List Variant) (e : SynError),
        gens.lifetimes = [] →
        get_variant_properties vIdent metas = .error e →
        derive_multi_version_inner
            { ident := ident, generics := gens, attrs := attrs,
              data := .enum ({ ident := vIdent, metas := metas } :: rest) } =
          .error e := by
  refine ⟨fun hI1 hI2 hD => ?_, fun hD1 hD2 hI => ?_, ?_⟩
  · refine aggregate_first_implemented k1 k2 v1 v2 l3 l1 l2 none _ hI1 hI2 ?_
    simp only [spanWeight]
    omega
  · refine aggregate_first_deprecated k1 k2 v1 v2 l3 l1 l2 none _ hD1 hD2 ?_
    simp only [spanWeight]
    omega
  · intro gens attrs vIdent metas rest e hg hfail
    simp [derive_multi_version_inner, hg, List.mapM, List.mapM.loop, hfail, Except.map,
      Bind.bind, Except.bind]

/-- Witness for C3: a variant with `implemented` records at spans 1 and
2 (plus an `alternative_version` and a `deprecated` record) is rejected,
and a derive invocation containing it aborts with the same error. -/
theorem duplicate_occurrence_rejected_witness :
    get_variant_properties "A"
        ([VariantMeta.AlternativeVersion ⟨5⟩ [(">=1.0.0", 3)]] ++
          VariantMeta.Implemented ⟨1⟩ "1.0.0" ::
            [VariantMeta.Deprecated ⟨3⟩ "2.0.0"] ++ VariantMeta.Implemented ⟨2⟩ "1.5.0" :: []) =
      .error (occurrence_error ⟨1⟩ ⟨2⟩ "implemented") ∧
      derive_multi_version_inner
          { ident := "E", generics := { lifetimes := [] }, attrs := [],
            data := .enum [{ ident := "A", metas := dupMetas }] } =
        .error (occurrence_error ⟨1⟩ ⟨2⟩ "implemented") :=
  ⟨(duplicate_occurrence_rejected "A" [VariantMeta.AlternativeVersion ⟨5⟩ [(">=1.0.0", 3)]]
        [VariantMeta.Deprecated ⟨3⟩ "2.0.0"] [] ⟨1⟩ ⟨2⟩ "1.0.0" "1.5.0").1 rfl rfl
      (by decide),
    (duplicate_occurrence_rejected "E" [] [] [] ⟨1⟩ ⟨2⟩ "" "").2.2 { lifetimes := [] } []
      "A" dupMetas [] (occurrence_error ⟨1⟩ ⟨2⟩ "implemented") rfl rfl⟩

end MultiVersion
